import Mathlib

/-!
Verification of the evolutionary-agent-simulation tick engine.

Shallow embedding of the Python sources:
  - `src/config.py`                          : numeric constants
  - `src/utils.py`                           : `clamp`
  - `src/agent_components/agent_body.py`     : movement, eating, aging/death, reproduction
  - `src/agent_components/agent_senses.py`   : sensory scan
  - `src/simulation.py` (`Simulation.run`)   : per-tick move resolution and cleanup
  - `src/population_balancer.py`             : adaptive resource controller

Integer grid coordinates are `ℤ`, energies and costs are `ℚ` (the Python
floats are used only in ranges where the claims are about ordering and
clamping, not rounding), counters are `ℕ`.  Randomness (action sampling,
mutation draws, `random.randint`) is threaded explicitly as oracle
arguments, with range hypotheses matching the source bounds.
-/

/-- `utils.clamp(val, low, high) = max(low, min(high, val))`. -/
def clamp {α : Type} [LinearOrder α] (val low high : α) : α :=
  max low (min high val)

-- ---- config.py constants ----

def ENERGY_START : ℚ := 45
def ENERGY_PER_FOOD : ℚ := 60
def ENERGY_TO_REPRODUCE : ℚ := 120
def ENERGY_AFTER_REPRO : ℚ := 45
def MAX_AGENT_AGE : ℕ := 1500
def MUTATION_RANGE : ℤ := 16
/-- `SENSOR_RADIUS_RANGE = (0, 20)`. -/
def SENSOR_RADIUS_LO : ℤ := 0
def SENSOR_RADIUS_HI : ℤ := 20
/-- `TARGET_CROWD_RATIO` in config.py. -/
def targetCrowdRatio : ℚ := 25/100
/-- `TARGET_ENERGY_RATIO` in config.py. -/
def targetEnergyRatio : ℚ := 25/100
def MIN_POP : ℕ := 40
def MAX_POP : ℤ := 800

-- ---- agent_state.py : the mutable agent record ----

/-- Mutable agent data (`AgentState`), restricted to the fields the tick
engine reads or writes.  The frozen recurrent LSTM tensors are opaque
stores never branched on, so they are omitted. -/
structure AgentSt where
  x : ℤ
  y : ℤ
  color : ℤ × ℤ × ℤ
  energy : ℚ
  personality : String
  age : ℕ
  offspring_count : ℕ
  id : ℕ
  parent_id : Option ℕ
  death_reason : Option String
  visited_last_10 : List (ℤ × ℤ)
  last_move : ℤ × ℤ
  food_radius : ℕ
  agent_radius : ℕ
  deriving DecidableEq, Repr

/-- The simulation fields read by the agent components
(`sim.world_w`, `sim.world_h`, `sim.MOVE_COST`, `sim.IDLE_COST`,
`sim.MAX_NEIGHBORS`). -/
structure SimEnv where
  world_w : ℤ
  world_h : ℤ
  MOVE_COST : ℚ
  IDLE_COST : ℚ
  MAX_NEIGHBORS : ℤ
  deriving DecidableEq, Repr

/-- A fresh agent as built by `AgentState.__init__` (used for concrete
scenarios; `id` fixed to 0 in place of the random draw). -/
def mkAgent (x y : ℤ) (energy : ℚ) : AgentSt :=
  { x := x, y := y, color := (200, 200, 200), energy := energy,
    personality := "explorer", age := 0, offspring_count := 0,
    id := 0, parent_id := none, death_reason := none,
    visited_last_10 := [], last_move := (0, 0),
    food_radius := 3, agent_radius := 3 }

-- ---- agent_body.py : action decoding ----

/-- The `directions` table of `AgentBody._decode_action`:
up, down, left, right. -/
def directions : List (ℤ × ℤ) := [(0, -1), (0, 1), (-1, 0), (1, 0)]

/-- Python list subscript semantics: a non-negative index reads in
order, an index in `[-len, -1]` reads from the end, anything else raises
`IndexError` (modelled as `none`). -/
def pyListGet {α : Type} (l : List α) (i : ℤ) : Option α :=
  if h : 0 ≤ i ∧ i < (l.length : ℤ) then
    some (l.get ⟨i.toNat, by omega⟩)
  else if h2 : -(l.length : ℤ) ≤ i ∧ i < 0 then
    some (l.get ⟨((l.length : ℤ) + i).toNat, by omega⟩)
  else
    none

/-- `AgentBody._decode_action(action)` = `directions[action]` with Python
subscript semantics. -/
def decode_action (action : ℤ) : Option (ℤ × ℤ) :=
  pyListGet directions action

/-- Action decoding at the call site of `Simulation.run`, where the
action is `np.random.choice(4)`, hence always in `{0,1,2,3}`. -/
def decode_action4 (action : Fin 4) : ℤ × ℤ :=
  directions.get (Fin.cast (by decide) action)

-- ---- agent_body.py : apply_move ----

/-- `trace_map[(x, y)] = tick`: association list with first-match lookup,
so consing models the dict overwrite. -/
def traceInsert (tr : List ((ℤ × ℤ) × ℕ)) (p : ℤ × ℤ) (tick : ℕ) :
    List ((ℤ × ℤ) × ℕ) :=
  (p, tick) :: tr

/-- `deque(maxlen=10).append`: push right, evict oldest beyond 10. -/
def pushLast10 (l : List (ℤ × ℤ)) (p : ℤ × ℤ) : List (ℤ × ℤ) :=
  let l2 := l ++ [p]
  if 10 < l2.length then l2.drop (l2.length - 10) else l2

/-- `AgentBody.apply_move`: clamp the target to world bounds; if the
target is the current cell or already claimed, idle (pay idle cost),
else move (pay move cost, record the vacated cell in trace and history).
Returns the updated agent and trace map. -/
def apply_move (sim : SimEnv) (a : AgentSt) (action : Fin 4)
    (taken : Finset (ℤ × ℤ)) (tr : List ((ℤ × ℤ) × ℕ)) (tick : ℕ) :
    AgentSt × List ((ℤ × ℤ) × ℕ) :=
  let d := decode_action4 action
  let nx := clamp (a.x + d.1) 0 (sim.world_w - 1)
  let ny := clamp (a.y + d.2) 0 (sim.world_h - 1)
  if (nx, ny) = (a.x, a.y) ∨ (nx, ny) ∈ taken then
    ({ a with energy := a.energy - sim.IDLE_COST }, tr)
  else
    ({ a with
        x := nx, y := ny,
        energy := a.energy - sim.MOVE_COST,
        last_move := d,
        visited_last_10 := pushLast10 a.visited_last_10 (a.x, a.y) },
      traceInsert tr (a.x, a.y) tick)

-- ---- agent_body.py : eat, step ----

/-- `AgentBody.eat`: consume the food unit on the agent's cell, if any. -/
def eat (a : AgentSt) (food : Finset (ℤ × ℤ)) : AgentSt × Finset (ℤ × ℤ) :=
  if (a.x, a.y) ∈ food then
    ({ a with energy := a.energy + ENERGY_PER_FOOD }, food.erase (a.x, a.y))
  else
    (a, food)

/-- `AgentBody.step`: increment age, then evaluate death causes in
priority order crowd, old_age, energy.  `sense_agents` is the sensed
agent count of this tick. -/
def step (env : SimEnv) (sense_agents : ℕ) (a : AgentSt) : AgentSt :=
  let b := { a with age := a.age + 1 }
  if 0 < env.MAX_NEIGHBORS ∧ env.MAX_NEIGHBORS < (sense_agents : ℤ) then
    { b with death_reason := some "crowd", energy := -1 }
  else if MAX_AGENT_AGE ≤ b.age then
    { b with death_reason := some "old_age", energy := -1 }
  else if b.energy ≤ 0 then
    { b with death_reason := some "energy" }
  else
    b

-- ---- agent_body.py : reproduction ----

/-- Oracle values for the random draws inside `AgentBody.reproduce` and
`utils.mutate_personality`. -/
structure ReproRand where
  d_food : ℤ
  d_agent : ℤ
  d_color : ℤ × ℤ × ℤ
  mut_personality : Bool
  personality_draw : String
  child_id : ℕ
  deriving Repr

/-- `mutate_radius(value) = clamp(value + randint(-1, 1), *SENSOR_RADIUS_RANGE)`. -/
def mutate_radius (v : ℕ) (d : ℤ) : ℕ :=
  (clamp ((v : ℤ) + d) SENSOR_RADIUS_LO SENSOR_RADIUS_HI).toNat

/-- `AgentBody.can_reproduce`: energy at least `ENERGY_TO_REPRODUCE`. -/
def can_reproduce (a : AgentSt) : Bool :=
  ENERGY_TO_REPRODUCE ≤ a.energy

/-- `AgentBody.reproduce`: returns `(updated parent, child)`.  The child
starts at the parent's cell (the caller relocates it), with energy
`ENERGY_AFTER_REPRO`, mutated radii/color/personality and zeroed state;
the parent's energy resets to `ENERGY_AFTER_REPRO` and its offspring
counter increments. -/
def reproduce (a : AgentSt) (r : ReproRand) : AgentSt × AgentSt :=
  let new_color : ℤ × ℤ × ℤ :=
    (clamp (a.color.1 + r.d_color.1) 0 255,
     clamp (a.color.2.1 + r.d_color.2.1) 0 255,
     clamp (a.color.2.2 + r.d_color.2.2) 0 255)
  let child : AgentSt :=
    { x := a.x, y := a.y, color := new_color,
      energy := ENERGY_AFTER_REPRO,
      personality := if r.mut_personality then r.personality_draw
                     else a.personality,
      age := 0, offspring_count := 0,
      id := r.child_id, parent_id := some a.id, death_reason := none,
      visited_last_10 := [], last_move := (0, 0),
      food_radius := mutate_radius a.food_radius r.d_food,
      agent_radius := mutate_radius a.agent_radius r.d_agent }
  let parent := { a with
      energy := ENERGY_AFTER_REPRO,
      offspring_count := a.offspring_count + 1 }
  (parent, child)

-- ======================================================================
-- Claims C2, C7, C9
-- ======================================================================

/-- C2.  In `AgentBody.step`, death is evaluated in priority order
crowd, old_age, energy: a crowd death (limit configured positive and
sensed agents strictly above it) or an old-age death (new age at least
the lifespan bound) forces the energy to the negative sentinel `-1`,
while an `energy` death is only ever assigned when the energy is already
non-positive — never while energy is positive. -/
theorem step_death_priority (env : SimEnv) (n : ℕ) (a : AgentSt)
    (hfresh : a.death_reason = none) :
    ((0 < env.MAX_NEIGHBORS ∧ env.MAX_NEIGHBORS < (n : ℤ)) →
       (step env n a).death_reason = some "crowd" ∧ (step env n a).energy = -1) ∧
    (¬(0 < env.MAX_NEIGHBORS ∧ env.MAX_NEIGHBORS < (n : ℤ)) →
       MAX_AGENT_AGE ≤ a.age + 1 →
       (step env n a).death_reason = some "old_age" ∧ (step env n a).energy = -1) ∧
    ((step env n a).death_reason = some "energy" →
       (step env n a).energy ≤ 0 ∧ (step env n a).energy = a.energy) ∧
    (0 < a.energy → (step env n a).death_reason ≠ some "energy") := by
  unfold step
  dsimp only
  split_ifs with hc hage he
  · exact ⟨fun _ => ⟨rfl, rfl⟩, fun hnc => absurd hc hnc,
      fun hdr => by simp at hdr, fun _ hdr => by simp at hdr⟩
  · exact ⟨fun h => absurd h hc, fun _ _ => ⟨rfl, rfl⟩,
      fun hdr => by simp at hdr, fun _ hdr => by simp at hdr⟩
  · exact ⟨fun h => absurd h hc, fun _ h => absurd h hage,
      fun _ => ⟨he, rfl⟩, fun hpos _ => absurd he (not_le.mpr hpos)⟩
  · exact ⟨fun h => absurd h hc, fun _ h => absurd h hage,
      fun hdr => by simp [hfresh] at hdr, fun _ hdr => by simp [hfresh] at hdr⟩

/-- C2 witness: a crowded agent at a concrete input dies with cause
`crowd` and sentinel energy `-1`. -/
theorem step_death_priority_witness :
    (step ⟨10, 10, 1, 6/10, 2⟩ 5 (mkAgent 1 1 50)).death_reason = some "crowd" ∧
    (step ⟨10, 10, 1, 6/10, 2⟩ 5 (mkAgent 1 1 50)).energy = -1 :=
  (step_death_priority ⟨10, 10, 1, 6/10, 2⟩ 5 (mkAgent 1 1 50) rfl).1
    (by decide)

/-- C7.  Reproduction eligibility is `energy ≥ ENERGY_TO_REPRODUCE`
(`= 120`): energy 119 is ineligible, energy 120 is eligible; after
`reproduce`, parent and child energies both equal `ENERGY_AFTER_REPRO`
and the parent's offspring counter has grown by exactly one. -/
theorem reproduce_threshold_and_reset :
    can_reproduce (mkAgent 0 0 119) = false ∧
    can_reproduce (mkAgent 0 0 120) = true ∧
    (∀ a : AgentSt, can_reproduce a = true ↔ ENERGY_TO_REPRODUCE ≤ a.energy) ∧
    (∀ (a : AgentSt) (r : ReproRand),
      (reproduce a r).1.energy = ENERGY_AFTER_REPRO ∧
      (reproduce a r).2.energy = ENERGY_AFTER_REPRO ∧
      (reproduce a r).1.offspring_count = a.offspring_count + 1) := by
  refine ⟨by decide, by decide, ?_, ?_⟩
  · intro a
    simp [can_reproduce]
  · intro a r
    exact ⟨rfl, rfl, rfl⟩

/-- C9 counterexample: the action index `-1` is outside `{0,1,2,3}`,
yet decoding does not fail: Python negative indexing silently yields the
offset `(1, 0)`. -/
theorem decode_action_neg_one_silent :
    decode_action (-1) = some (1, 0) := by decide

/-- C9 (amended).  Decoding raises (returns `none`) exactly for action
indices at least `4` or below `-4`; every index in `[-4, 3]` — including
the out-of-range negative ones — silently yields a movement offset. -/
theorem decode_action_fails_iff (i : ℤ) :
    decode_action i = none ↔ (4 ≤ i ∨ i < -4) := by
  constructor
  · intro h
    by_contra hcon
    push_neg at hcon
    obtain ⟨h1, h2⟩ := hcon
    interval_cases i <;> exact absurd h (by decide)
  · intro h
    unfold decode_action pyListGet
    rw [dif_neg, dif_neg]
    · simp only [directions, List.length_cons, List.length_nil]
      push_cast
      omega
    · simp only [directions, List.length_cons, List.length_nil]
      push_cast
      omega

/-- C9 witness: index 7 is rejected. -/
theorem decode_action_fails_iff_witness :
    decode_action 7 = none :=
  (decode_action_fails_iff 7).mpr (Or.inl (by decide))

-- ======================================================================
-- agent_senses.py : the sensory scan (AgentSenses.update)
-- ======================================================================

/-- Accumulator for one sensory scan: the counter fields of
`AgentSenses` together with the local `friends` / `others` /
energy accumulators of `update`.  Directional distances are kept as the
raw per-axis distances (`None` = no food seen yet on that ray). -/
structure ScanAcc where
  sense_food : ℕ
  sense_agents : ℕ
  friends : ℕ
  others : ℕ
  energy_sum : ℚ
  energy_max : ℚ
  energy_count : ℕ
  food_up : ℕ
  food_down : ℕ
  food_left : ℕ
  food_right : ℕ
  food_up_dist : Option ℕ
  food_down_dist : Option ℕ
  food_left_dist : Option ℕ
  food_right_dist : Option ℕ
  deriving DecidableEq, Repr

/-- The zero/neutral defaults of `AgentSenses.reset`. -/
def scanInit : ScanAcc :=
  { sense_food := 0, sense_agents := 0, friends := 0, others := 0,
    energy_sum := 0, energy_max := 0, energy_count := 0,
    food_up := 0, food_down := 0, food_left := 0, food_right := 0,
    food_up_dist := none, food_down_dist := none,
    food_left_dist := none, food_right_dist := none }

/-- `AgentSenses._update_direction`: dominant-axis directional counters;
a tie (`|dx| = |dy|`) increments both axes. -/
def update_direction (acc : ScanAcc) (dx dy : ℤ) : ScanAcc :=
  let acc1 :=
    if dy.natAbs ≤ dx.natAbs then
      if 0 < dx then { acc with food_right := acc.food_right + 1 }
      else if dx < 0 then { acc with food_left := acc.food_left + 1 }
      else acc
    else acc
  if dx.natAbs ≤ dy.natAbs then
    if 0 < dy then { acc1 with food_down := acc1.food_down + 1 }
    else if dy < 0 then { acc1 with food_up := acc1.food_up + 1 }
    else acc1
  else acc1

/-- `AgentSenses._min_dist`: `None` acts as infinity. -/
def min_dist (old : Option ℕ) (new : ℕ) : Option ℕ :=
  match old with
  | none => some new
  | some o => if new < o then some new else some o

/-- `AgentSenses._update_distance`: per-axis minimum distance to food in
each cardinal direction (only strictly axis-aligned cells count). -/
def update_distance (acc : ScanAcc) (dx dy : ℤ) : ScanAcc :=
  let acc := if dx = 0 ∧ dy < 0 then
    { acc with food_up_dist := min_dist acc.food_up_dist dy.natAbs } else acc
  let acc := if dx = 0 ∧ 0 < dy then
    { acc with food_down_dist := min_dist acc.food_down_dist dy.natAbs } else acc
  let acc := if dy = 0 ∧ dx < 0 then
    { acc with food_left_dist := min_dist acc.food_left_dist dx.natAbs } else acc
  if dy = 0 ∧ 0 < dx then
    { acc with food_right_dist := min_dist acc.food_right_dist dx.natAbs } else acc

/-- The clamped cell `(tx, ty)` read for offset `d`. -/
def clampCell (self : AgentSt) (w h : ℤ) (d : ℤ × ℤ) : ℤ × ℤ :=
  (clamp (self.x + d.1) 0 (w - 1), clamp (self.y + d.2) 0 (h - 1))

/-- The inner per-occupant accumulation of `AgentSenses.update`
(friend/other split and energy aggregates). -/
def accumAgent (self : AgentSt) (ac : ScanAcc) (ag : AgentSt) : ScanAcc :=
  { ac with
    friends := if ag.color = self.color then ac.friends + 1 else ac.friends,
    others := if ag.color = self.color then ac.others else ac.others + 1,
    energy_sum := ac.energy_sum + ag.energy,
    energy_max := if ac.energy_max < ag.energy then ag.energy else ac.energy_max,
    energy_count := ac.energy_count + 1 }

/-- The body of the double loop of `AgentSenses.update` for one offset
`(dx, dy)` (the `chemo_grid` argument is `None` in the simulation, so the
chemo branch is skipped). -/
def visitCell (self : AgentSt) (food : Finset (ℤ × ℤ))
    (grid : ℤ × ℤ → List AgentSt) (w h : ℤ)
    (acc : ScanAcc) (d : ℤ × ℤ) : ScanAcc :=
  let here := grid (clampCell self w h d)
  let acc := { acc with sense_agents := acc.sense_agents + here.length }
  let acc := here.foldl (accumAgent self) acc
  if clampCell self w h d ∈ food then
    let acc := { acc with sense_food := acc.sense_food + 1 }
    if d.1 = 0 ∧ d.2 = 0 then acc
    else update_distance (update_direction acc d.1 d.2) d.1 d.2
  else acc

/-- The offsets `(dx, dy)` of the scan, in source iteration order:
`dx` in `range(-fr, fr+1)` outer, `dy` inner. -/
def offsetsList (fr : ℕ) : List (ℤ × ℤ) :=
  (List.range (2 * fr + 1)).flatMap (fun (i : ℕ) =>
    (List.range (2 * fr + 1)).map (fun (j : ℕ) =>
      ((i : ℤ) - (fr : ℤ), (j : ℤ) - (fr : ℤ))))

/-- The full scan loop of `AgentSenses.update`. -/
def scanAll (self : AgentSt) (food : Finset (ℤ × ℤ))
    (grid : ℤ × ℤ → List AgentSt) (w h : ℤ) : ScanAcc :=
  (offsetsList self.food_radius).foldl (visitCell self food grid w h) scanInit

/-- The published sensory fields after `AgentSenses.update`. -/
structure SensesOut where
  sense_food : ℕ
  sense_agents : ℕ
  sense_friends : ℕ
  sense_others : ℕ
  food_up : ℕ
  food_down : ℕ
  food_left : ℕ
  food_right : ℕ
  food_up_dist : ℚ
  food_down_dist : ℚ
  food_left_dist : ℚ
  food_right_dist : ℚ
  avg_energy : ℚ
  max_energy : ℚ
  edge_distance_x : ℚ
  edge_distance_y : ℚ
  deriving DecidableEq, Repr

/-- `AgentSenses._normalize_distances` for one ray: `(dist or r) / r`
with `r = food_radius + 1` (a recorded distance is always ≥ 1, so the
Python `or` is exactly `getD`). -/
def normalize_dist (fr : ℕ) (d : Option ℕ) : ℚ :=
  ((d.map (Nat.cast : ℕ → ℚ)).getD ((fr : ℚ) + 1)) / ((fr : ℚ) + 1)

/-- `AgentSenses.update`: run the scan, then publish averages,
normalized distances and edge distances. -/
def senses_update (self : AgentSt) (food : Finset (ℤ × ℤ))
    (grid : ℤ × ℤ → List AgentSt) (w h : ℤ) : SensesOut :=
  let acc := scanAll self food grid w h
  { sense_food := acc.sense_food,
    sense_agents := acc.sense_agents,
    sense_friends := acc.friends,
    sense_others := acc.others,
    food_up := acc.food_up,
    food_down := acc.food_down,
    food_left := acc.food_left,
    food_right := acc.food_right,
    food_up_dist := normalize_dist self.food_radius acc.food_up_dist,
    food_down_dist := normalize_dist self.food_radius acc.food_down_dist,
    food_left_dist := normalize_dist self.food_radius acc.food_left_dist,
    food_right_dist := normalize_dist self.food_radius acc.food_right_dist,
    avg_energy := if acc.energy_count ≠ 0 then
        acc.energy_sum / (acc.energy_count : ℚ) else 0,
    max_energy := acc.energy_max,
    edge_distance_x := ((min self.x (w - 1 - self.x) : ℤ) : ℚ) / ((w : ℚ) - 1),
    edge_distance_y := ((min self.y (h - 1 - self.y) : ℤ) : ℚ) / ((h : ℚ) - 1) }

-- Helper definitions for the occupancy claims (C10).

/-- The cells actually read by a scan, with the source's boundary
clamping, in iteration order. -/
def scannedCells (self : AgentSt) (w h : ℤ) : List (ℤ × ℤ) :=
  (offsetsList self.food_radius).map (clampCell self w h)

/-- The unclamped square neighborhood of the agent. -/
def squareCells (self : AgentSt) : List (ℤ × ℤ) :=
  (offsetsList self.food_radius).map (fun d => (self.x + d.1, self.y + d.2))

/-- Number of agents occupying the distinct cells the scan touches. -/
def distinctOccupancy (self : AgentSt) (grid : ℤ × ℤ → List AgentSt)
    (w h : ℤ) : ℕ :=
  (((scannedCells self w h).dedup).map (fun c => (grid c).length)).sum

/-- Number of distinct food-bearing cells the scan touches. -/
def distinctFoodCells (self : AgentSt) (food : Finset (ℤ × ℤ))
    (w h : ℤ) : ℕ :=
  (((scannedCells self w h).dedup).filter (fun c => c ∈ food)).length

/-- True occupancy of the unclamped square neighborhood. -/
def trueAgentCount (self : AgentSt) (grid : ℤ × ℤ → List AgentSt) : ℕ :=
  ((squareCells self).map (fun c => (grid c).length)).sum

/-- True number of food cells in the unclamped square neighborhood. -/
def trueFoodCount (self : AgentSt) (food : Finset (ℤ × ℤ)) : ℕ :=
  ((squareCells self).filter (fun c => c ∈ food)).length

-- Counting lemmas for the scan.

theorem upddir_sense_agents (acc : ScanAcc) (dx dy : ℤ) :
    (update_direction acc dx dy).sense_agents = acc.sense_agents := by
  unfold update_direction
  dsimp only
  split_ifs <;> rfl

theorem upddir_sense_food (acc : ScanAcc) (dx dy : ℤ) :
    (update_direction acc dx dy).sense_food = acc.sense_food := by
  unfold update_direction
  dsimp only
  split_ifs <;> rfl

theorem upddist_sense_agents (acc : ScanAcc) (dx dy : ℤ) :
    (update_distance acc dx dy).sense_agents = acc.sense_agents := by
  unfold update_distance
  dsimp only
  split_ifs <;> rfl

theorem upddist_sense_food (acc : ScanAcc) (dx dy : ℤ) :
    (update_distance acc dx dy).sense_food = acc.sense_food := by
  unfold update_distance
  dsimp only
  split_ifs <;> rfl

theorem foldl_accum_sense_agents (self : AgentSt) :
    ∀ (l : List AgentSt) (acc : ScanAcc),
      (l.foldl (accumAgent self) acc).sense_agents = acc.sense_agents
  | [], _ => rfl
  | ag :: rest, acc => by
    have ih := foldl_accum_sense_agents self rest (accumAgent self acc ag)
    simpa [accumAgent] using ih

theorem foldl_accum_sense_food (self : AgentSt) :
    ∀ (l : List AgentSt) (acc : ScanAcc),
      (l.foldl (accumAgent self) acc).sense_food = acc.sense_food
  | [], _ => rfl
  | ag :: rest, acc => by
    have ih := foldl_accum_sense_food self rest (accumAgent self acc ag)
    simpa [accumAgent] using ih

theorem visitCell_sense_agents (self : AgentSt) (food : Finset (ℤ × ℤ))
    (grid : ℤ × ℤ → List AgentSt) (w h : ℤ) (acc : ScanAcc) (d : ℤ × ℤ) :
    (visitCell self food grid w h acc d).sense_agents
      = acc.sense_agents + (grid (clampCell self w h d)).length := by
  unfold visitCell
  dsimp only
  split_ifs <;>
    simp [upddist_sense_agents, upddir_sense_agents, foldl_accum_sense_agents]

theorem visitCell_sense_food (self : AgentSt) (food : Finset (ℤ × ℤ))
    (grid : ℤ × ℤ → List AgentSt) (w h : ℤ) (acc : ScanAcc) (d : ℤ × ℤ) :
    (visitCell self food grid w h acc d).sense_food
      = acc.sense_food + (if clampCell self w h d ∈ food then 1 else 0) := by
  unfold visitCell
  dsimp only
  split_ifs <;>
    simp [upddist_sense_food, upddir_sense_food, foldl_accum_sense_food]

theorem scan_sense_agents (self : AgentSt) (food : Finset (ℤ × ℤ))
    (grid : ℤ × ℤ → List AgentSt) (w h : ℤ) :
    ∀ (offs : List (ℤ × ℤ)) (acc : ScanAcc),
      (offs.foldl (visitCell self food grid w h) acc).sense_agents
        = acc.sense_agents
          + ((offs.map (fun d => (grid (clampCell self w h d)).length)).sum) := by
  intro offs
  induction offs with
  | nil => intro acc; simp
  | cons d rest ih =>
    intro acc
    simp only [List.foldl_cons, List.map_cons, List.sum_cons]
    rw [ih, visitCell_sense_agents]
    omega

theorem scan_sense_food (self : AgentSt) (food : Finset (ℤ × ℤ))
    (grid : ℤ × ℤ → List AgentSt) (w h : ℤ) :
    ∀ (offs : List (ℤ × ℤ)) (acc : ScanAcc),
      (offs.foldl (visitCell self food grid w h) acc).sense_food
        = acc.sense_food
          + offs.countP (fun d => decide (clampCell self w h d ∈ food)) := by
  intro offs
  induction offs with
  | nil => intro acc; simp
  | cons d rest ih =>
    intro acc
    simp only [List.foldl_cons, List.countP_cons]
    rw [ih, visitCell_sense_food]
    by_cases hf : clampCell self w h d ∈ food
    · simp [hf]
      omega
    · simp [hf]

theorem scanAll_sense_agents (self : AgentSt) (food : Finset (ℤ × ℤ))
    (grid : ℤ × ℤ → List AgentSt) (w h : ℤ) :
    (scanAll self food grid w h).sense_agents
      = ((scannedCells self w h).map (fun c => (grid c).length)).sum := by
  unfold scanAll scannedCells
  rw [scan_sense_agents, List.map_map]
  simp only [scanInit, Nat.zero_add]
  rfl

theorem scanAll_sense_food (self : AgentSt) (food : Finset (ℤ × ℤ))
    (grid : ℤ × ℤ → List AgentSt) (w h : ℤ) :
    (scanAll self food grid w h).sense_food
      = ((scannedCells self w h).filter (fun c => decide (c ∈ food))).length := by
  unfold scanAll scannedCells
  rw [scan_sense_food, ← List.countP_eq_length_filter, List.countP_map]
  simp only [scanInit, Nat.zero_add]
  rfl

theorem mem_offsetsList {fr : ℕ} {d : ℤ × ℤ} :
    d ∈ offsetsList fr ↔
      -(fr : ℤ) ≤ d.1 ∧ d.1 ≤ fr ∧ -(fr : ℤ) ≤ d.2 ∧ d.2 ≤ fr := by
  unfold offsetsList
  simp only [List.mem_flatMap, List.mem_map, List.mem_range]
  constructor
  · intro hd
    obtain ⟨i, hi, j, hj, heq⟩ := hd
    subst heq
    dsimp only
    refine ⟨by omega, by omega, by omega, by omega⟩
  · rintro ⟨h1, h2, h3, h4⟩
    refine ⟨(d.1 + fr).toNat, by omega, (d.2 + fr).toNat, by omega, ?_⟩
    rw [Prod.ext_iff]
    dsimp only
    constructor <;> omega

theorem offsetsList_nodup (fr : ℕ) : (offsetsList fr).Nodup := by
  unfold offsetsList
  rw [List.nodup_flatMap]
  constructor
  · intro i _
    have hinj : Function.Injective
        (fun j : ℕ => ((i : ℤ) - fr, (j : ℤ) - fr)) := by
      intro j1 j2 hj
      simp only [Prod.mk.injEq] at hj
      omega
    exact List.Nodup.map hinj (List.nodup_range _)
  · refine (List.pairwise_lt_range _).imp ?_
    intro i1 i2 hlt x hx1 hx2
    simp only [List.mem_map] at hx1 hx2
    obtain ⟨j1, _, rfl⟩ := hx1
    obtain ⟨j2, _, hx⟩ := hx2
    simp only [Prod.mk.injEq] at hx
    omega

theorem squareCells_nodup (self : AgentSt) : (squareCells self).Nodup := by
  unfold squareCells
  have hinj : Function.Injective
      (fun d : ℤ × ℤ => (self.x + d.1, self.y + d.2)) := by
    intro d1 d2 hd
    simp only [Prod.mk.injEq] at hd
    rw [Prod.ext_iff]
    constructor <;> omega
  exact List.Nodup.map hinj (offsetsList_nodup _)

theorem scannedCells_eq_squareCells (self : AgentSt) (w h : ℤ)
    (hx1 : (self.food_radius : ℤ) ≤ self.x)
    (hx2 : self.x + self.food_radius ≤ w - 1)
    (hy1 : (self.food_radius : ℤ) ≤ self.y)
    (hy2 : self.y + self.food_radius ≤ h - 1) :
    scannedCells self w h = squareCells self := by
  unfold scannedCells squareCells
  refine List.map_congr_left ?_
  intro d hd
  rw [mem_offsetsList] at hd
  simp only [clampCell, clamp, Prod.mk.injEq]
  constructor <;> omega

-- Concrete scenario for C8: world 107 x 82 (= 1720//16 x 1320//16),
-- agent at (5,5) with food radius 2, single food unit at (5,3).

def ag8 : AgentSt := { mkAgent 5 5 45 with food_radius := 2 }

def food8 : Finset (ℤ × ℤ) := {(5, 3)}

def grid8 : ℤ × ℤ → List AgentSt := fun p => if p = (5, 5) then [ag8] else []

/-- C8 counterexample: in the spec's concrete scenario the food is two
cells up, so the normalized up-distance is `2/3`, not the claimed
`1/(radius+1) = 1/3`. -/
theorem senses_scenario_dist_ne_one_third :
    (senses_update ag8 food8 grid8 107 82).food_up_dist ≠ 1/3 := by
  have hraw : (scanAll ag8 food8 grid8 107 82).food_up_dist = some 2 := by
    decide
  show normalize_dist ag8.food_radius
      (scanAll ag8 food8 grid8 107 82).food_up_dist ≠ 1/3
  rw [hraw]
  show ((2 : ℚ)) / ((ag8.food_radius : ℚ) + 1) ≠ 1/3
  norm_num [ag8, mkAgent]

/-- C8 (amended).  Agent at (5,5), food radius 2, single food unit at
(5,3): after one sensory update `food_up_dist = 2/(radius+1) = 2/3`, the
`food_up` counter is 1 and the other three directional counters are 0. -/
theorem senses_scenario_food_up :
    (senses_update ag8 food8 grid8 107 82).food_up_dist = 2/3 ∧
    (senses_update ag8 food8 grid8 107 82).food_up = 1 ∧
    (senses_update ag8 food8 grid8 107 82).food_down = 0 ∧
    (senses_update ag8 food8 grid8 107 82).food_left = 0 ∧
    (senses_update ag8 food8 grid8 107 82).food_right = 0 := by
  have hraw : (scanAll ag8 food8 grid8 107 82).food_up_dist = some 2 := by
    decide
  refine ⟨?_, by decide, by decide, by decide, by decide⟩
  show normalize_dist ag8.food_radius
      (scanAll ag8 food8 grid8 107 82).food_up_dist = 2/3
  rw [hraw]
  show ((2 : ℚ)) / ((ag8.food_radius : ℚ) + 1) = 2/3
  norm_num [ag8, mkAgent]

-- Concrete scenario for C10: agent in the corner of a 10 x 10 world,
-- food radius 1, one neighbor at (1,0) which also bears food.

def ag10 : AgentSt := { mkAgent 0 0 45 with food_radius := 1 }

def agB10 : AgentSt := { mkAgent 1 0 45 with color := (10, 20, 30) }

def food10 : Finset (ℤ × ℤ) := {(1, 0)}

def grid10 : ℤ × ℤ → List AgentSt := fun p =>
  if p = (0, 0) then [ag10] else if p = (1, 0) then [agB10] else []

/-- C10.  The scan clamps out-of-bounds offsets to the boundary instead
of skipping them, so near an edge single cells are visited repeatedly:
in the 10x10 corner scenario the 9 offsets collapse onto 4 distinct
cells, `sense_agents = 6` against 2 distinct agents in the scanned
region and `sense_food = 2` against 1 distinct food cell.  For an agent
at least `food_radius` away from every edge, the scanned cells are
exactly the square neighborhood, each scanned once (`Nodup`), and the
counts equal the true occupancy and food counts. -/
theorem senses_clamped_scan :
    ((senses_update ag10 food10 grid10 10 10).sense_agents = 6 ∧
     distinctOccupancy ag10 grid10 10 10 = 2 ∧
     (senses_update ag10 food10 grid10 10 10).sense_food = 2 ∧
     distinctFoodCells ag10 food10 10 10 = 1) ∧
    (∀ (self : AgentSt) (food : Finset (ℤ × ℤ))
        (grid : ℤ × ℤ → List AgentSt) (w h : ℤ),
      (self.food_radius : ℤ) ≤ self.x → self.x + self.food_radius ≤ w - 1 →
      (self.food_radius : ℤ) ≤ self.y → self.y + self.food_radius ≤ h - 1 →
      (squareCells self).Nodup ∧
      scannedCells self w h = squareCells self ∧
      (senses_update self food grid w h).sense_agents = trueAgentCount self grid ∧
      (senses_update self food grid w h).sense_food = trueFoodCount self food) := by
  constructor
  · exact ⟨by decide, by decide, by decide, by decide⟩
  · intro self food grid w h hx1 hx2 hy1 hy2
    have hsq := scannedCells_eq_squareCells self w h hx1 hx2 hy1 hy2
    refine ⟨squareCells_nodup self, hsq, ?_, ?_⟩
    · show (scanAll self food grid w h).sense_agents = trueAgentCount self grid
      rw [scanAll_sense_agents, hsq]
      rfl
    · show (scanAll self food grid w h).sense_food = trueFoodCount self food
      rw [scanAll_sense_food, hsq]
      rfl

/-- C10 witness: the interior part applied to the agent of the (5,5)
scenario, whose scan stays inside the 107 x 82 world. -/
theorem senses_clamped_scan_witness :
    (senses_update ag8 food8 grid8 107 82).sense_agents
      = trueAgentCount ag8 grid8 ∧
    (senses_update ag8 food8 grid8 107 82).sense_food
      = trueFoodCount ag8 food8 :=
  ⟨(senses_clamped_scan.2 ag8 food8 grid8 107 82 (by decide) (by decide)
      (by decide) (by decide)).2.2.1,
   (senses_clamped_scan.2 ag8 food8 grid8 107 82 (by decide) (by decide)
      (by decide) (by decide)).2.2.2⟩

-- ======================================================================
-- simulation.py : move resolution (lines 339-345) and end-of-tick
-- cleanup (lines 346-357)
-- ======================================================================

/-- An agent's grid cell. -/
def pos (a : AgentSt) : ℤ × ℤ := (a.x, a.y)

/-- The move-resolution loop of `Simulation.run`: the live-agent list at
tick start paired with the sampled actions, processed in order.  `taken`
starts as the set of all agents' positions; only agents with positive
energy act (`active_idx`), and after each move the agent's (possibly
new) position is added to `taken`. -/
def moveStep (sim : SimEnv) (tick : ℕ) :
    List (AgentSt × Fin 4) → Finset (ℤ × ℤ) → List ((ℤ × ℤ) × ℕ) →
      List AgentSt × Finset (ℤ × ℤ) × List ((ℤ × ℤ) × ℕ)
  | [], taken, tr => ([], taken, tr)
  | (a, act) :: rest, taken, tr =>
    if 0 < a.energy then
      let a1 := (apply_move sim a act taken tr tick).1
      let tr1 := (apply_move sim a act taken tr tick).2
      let r := moveStep sim tick rest (insert (pos a1) taken) tr1
      (a1 :: r.1, r.2.1, r.2.2)
    else
      let r := moveStep sim tick rest taken tr
      (a :: r.1, r.2.1, r.2.2)

/-- `apply_move` either leaves the agent on its cell (idle) or moves it
to a cell that was neither claimed nor its own. -/
theorem apply_move_pos (sim : SimEnv) (a : AgentSt) (act : Fin 4)
    (taken : Finset (ℤ × ℤ)) (tr : List ((ℤ × ℤ) × ℕ)) (tick : ℕ) :
    pos (apply_move sim a act taken tr tick).1 = pos a ∨
    (pos (apply_move sim a act taken tr tick).1 ∉ taken ∧
     pos (apply_move sim a act taken tr tick).1 ≠ pos a) := by
  unfold apply_move
  dsimp only
  split_ifs with hcond
  · left; rfl
  · right
    push_neg at hcond
    exact ⟨hcond.2, hcond.1⟩

/-- Invariant of the move-resolution loop: starting from a claim set
covering every pending agent's cell and pairwise-distinct cells, the
processed agents end on pairwise-distinct cells, all inside the final
claim set; every final cell is an original cell or a fresh one. -/
theorem moveStep_spec (sim : SimEnv) (tick : ℕ) :
    ∀ (l : List (AgentSt × Fin 4)) (taken : Finset (ℤ × ℤ))
      (tr : List ((ℤ × ℤ) × ℕ)),
      (∀ p ∈ l, pos p.1 ∈ taken) →
      (l.map (fun p => pos p.1)).Nodup →
      ((moveStep sim tick l taken tr).1.map pos).Nodup ∧
      (∀ b ∈ (moveStep sim tick l taken tr).1,
        pos b ∈ (moveStep sim tick l taken tr).2.1) ∧
      taken ⊆ (moveStep sim tick l taken tr).2.1 ∧
      (∀ q ∈ (moveStep sim tick l taken tr).1.map pos,
        q ∈ l.map (fun p => pos p.1) ∨ q ∉ taken)
  | [], taken, tr => by
    intro _ _
    refine ⟨List.nodup_nil, ?_, Finset.Subset.refl _, ?_⟩
    · intro b hb; exact absurd hb (List.not_mem_nil b)
    · intro q hq; exact absurd hq (by simp [moveStep])
  | (a, act) :: rest, taken, tr => by
    intro hcov hnd
    have hconsN : pos a ∉ rest.map (fun p => pos p.1) :=
      (List.nodup_cons.mp (by simpa using hnd)).1
    have hrestN : (rest.map (fun p => pos p.1)).Nodup :=
      (List.nodup_cons.mp (by simpa using hnd)).2
    by_cases hA : 0 < a.energy
    · simp only [moveStep, if_pos hA]
      have hmv := apply_move_pos sim a act taken tr tick
      have hcov1 : ∀ p ∈ rest,
          pos p.1 ∈ insert (pos (apply_move sim a act taken tr tick).1) taken := by
        intro p hp
        exact Finset.mem_insert_of_mem (hcov p (List.mem_cons_of_mem _ hp))
      obtain ⟨ihN, ihMem, ihSub, ihOrig⟩ :=
        moveStep_spec sim tick rest
          (insert (pos (apply_move sim a act taken tr tick).1) taken)
          (apply_move sim a act taken tr tick).2 hcov1 hrestN
      refine ⟨?_, ?_, ?_, ?_⟩
      · rw [List.map_cons, List.nodup_cons]
        refine ⟨?_, ihN⟩
        intro hmem
        rcases ihOrig _ hmem with hin | hout
        · rcases hmv with heq | ⟨hnt, _⟩
          · rw [heq] at hin; exact hconsN hin
          · rcases List.mem_map.mp hin with ⟨p, hp, hpe⟩
            exact hnt (hpe ▸ hcov p (List.mem_cons_of_mem _ hp))
        · exact hout (Finset.mem_insert_self _ _)
      · intro b hb
        rcases List.mem_cons.mp hb with rfl | hb2
        · exact ihSub (Finset.mem_insert_self _ _)
        · exact ihMem b hb2
      · exact fun x hx => ihSub (Finset.mem_insert_of_mem hx)
      · intro q hq
        rw [List.map_cons] at hq
        rcases List.mem_cons.mp hq with rfl | hq2
        · rcases hmv with heq | ⟨hnt, _⟩
          · left; rw [heq]; exact List.mem_cons_self _ _
          · right; exact hnt
        · rcases ihOrig q hq2 with hin | hout
          · left; exact List.mem_cons_of_mem _ hin
          · right; exact fun hx => hout (Finset.mem_insert_of_mem hx)
    · simp only [moveStep, if_neg hA]
      obtain ⟨ihN, ihMem, ihSub, ihOrig⟩ :=
        moveStep_spec sim tick rest taken tr
          (fun p hp => hcov p (List.mem_cons_of_mem _ hp)) hrestN
      refine ⟨?_, ?_, ?_, ?_⟩
      · rw [List.map_cons, List.nodup_cons]
        refine ⟨?_, ihN⟩
        intro hmem
        rcases ihOrig _ hmem with hin | hout
        · exact hconsN hin
        · exact hout (hcov (a, act) (List.mem_cons_self _ _))
      · intro b hb
        rcases List.mem_cons.mp hb with rfl | hb2
        · exact ihSub (hcov (b, act) (List.mem_cons_self _ _))
        · exact ihMem b hb2
      · exact ihSub
      · intro q hq
        rw [List.map_cons] at hq
        rcases List.mem_cons.mp hq with rfl | hq2
        · left; exact List.mem_cons_self _ _
        · rcases ihOrig q hq2 with hin | hout
          · left; exact List.mem_cons_of_mem _ hin
          · right; exact hout

/-- The initial simulation resource values (`Simulation.__init__`):
world 107 x 82, `MOVE_COST = 1.0`, `IDLE_COST = 0.6`,
`MAX_NEIGHBORS = 15`. -/
def sim0 : SimEnv :=
  { world_w := 107, world_h := 82, MOVE_COST := 1, IDLE_COST := 6/10,
    MAX_NEIGHBORS := 15 }

/-- C1 counterexample: initial seeding draws positions independently, so
two agents can share a cell at tick start; here both sit at (0,0) in the
corner and both sample action 0 (up), whose clamped target is their own
cell, so both idle and still share the cell after move resolution. -/
theorem move_resolution_collision_ce :
    ((moveStep sim0 0 [(mkAgent 0 0 50, (0 : Fin 4)), (mkAgent 0 0 50, 0)]
        {(0, 0)} []).1.map pos) = [(0, 0), (0, 0)] ∧
    ¬ ((moveStep sim0 0 [(mkAgent 0 0 50, (0 : Fin 4)), (mkAgent 0 0 50, 0)]
        {(0, 0)} []).1.map pos).Nodup := by
  constructor
  · decide
  · decide

/-- C1 (amended).  If the agents occupy pairwise-distinct cells at the
start of move resolution, and the shared taken set is initialized with
all their cells (`Simulation.run` line 339), then after the whole
resolution loop — claims processed in the live-agent iteration order,
each agent's new position added after its move — the agents again occupy
pairwise-distinct cells. -/
theorem move_resolution_no_collision (sim : SimEnv) (tick : ℕ)
    (l : List (AgentSt × Fin 4)) (tr : List ((ℤ × ℤ) × ℕ))
    (hnd : (l.map (fun p => pos p.1)).Nodup) :
    ((moveStep sim tick l (l.map (fun p => pos p.1)).toFinset tr).1.map pos).Nodup :=
  (moveStep_spec sim tick l (l.map (fun p => pos p.1)).toFinset tr
    (fun p hp => List.mem_toFinset.mpr (List.mem_map.mpr ⟨p, hp, rfl⟩))
    hnd).1

/-- C1 witness: two distinct agents — one moving up, one blocked — end
on distinct cells. -/
theorem move_resolution_no_collision_witness :
    (([(mkAgent 3 3 50, (0 : Fin 4)), (mkAgent 3 2 50, 0)].map
        (fun p => pos p.1)).Nodup) ∧
    ((moveStep sim0 0 [(mkAgent 3 3 50, (0 : Fin 4)), (mkAgent 3 2 50, 0)]
        ([(mkAgent 3 3 50, (0 : Fin 4)), (mkAgent 3 2 50, 0)].map
          (fun p => pos p.1)).toFinset []).1.map pos).Nodup :=
  ⟨by decide,
   move_resolution_no_collision sim0 0
     [(mkAgent 3 3 50, (0 : Fin 4)), (mkAgent 3 2 50, 0)] [] (by decide)⟩

-- ---- end-of-tick eat/step loop and cleanup ----

/-- The eat/age loop of `Simulation.run` (lines 346-349): only agents
with positive energy eat and age; each agent is paired with its sensed
agent count for this tick. -/
def eatStepPhase (env : SimEnv) :
    List (AgentSt × ℕ) → Finset (ℤ × ℤ) → List AgentSt × Finset (ℤ × ℤ)
  | [], food => ([], food)
  | (a, n) :: rest, food =>
    if 0 < a.energy then
      let a2 := step env n (eat a food).1
      let r := eatStepPhase env rest (eat a food).2
      (a2 :: r.1, r.2)
    else
      let r := eatStepPhase env rest food
      (a :: r.1, r.2)

/-- `dead = [a for a in self.agents if a.energy <= 0]` (line 350). -/
def deadOf (l : List AgentSt) : List AgentSt :=
  l.filter (fun a => a.energy ≤ 0)

/-- `self.agents = [a for a in self.agents if a.energy > 0]` (line 357). -/
def cleanup (l : List AgentSt) : List AgentSt :=
  l.filter (fun a => 0 < a.energy)

theorem eat_death_reason (a : AgentSt) (food : Finset (ℤ × ℤ)) :
    (eat a food).1.death_reason = a.death_reason := by
  unfold eat
  split_ifs <;> rfl

/-- A death cause newly assigned by `step` comes with non-positive
energy (the crowd/old-age branches force the `-1` sentinel, the energy
branch requires energy ≤ 0 already). -/
theorem step_new_cause_energy (env : SimEnv) (n : ℕ) (a1 : AgentSt)
    (h : a1.death_reason = none)
    (hnew : (step env n a1).death_reason ≠ none) :
    (step env n a1).energy ≤ 0 := by
  by_cases hc : 0 < env.MAX_NEIGHBORS ∧ env.MAX_NEIGHBORS < (n : ℤ)
  · have he : (step env n a1).energy = -1 := by simp [step, hc]
    rw [he]; norm_num
  · by_cases hage : MAX_AGENT_AGE ≤ a1.age + 1
    · have he : (step env n a1).energy = -1 := by simp [step, hc, hage]
      rw [he]; norm_num
    · by_cases hen : a1.energy ≤ 0
      · have he : (step env n a1).energy = a1.energy := by
          simp [step, hc, hage, hen]
        rw [he]; exact hen
      · exfalso
        apply hnew
        simp [step, hc, hage, hen, h]

/-- Every agent whose death cause is assigned during the eat/age loop of
a tick ends the loop with non-positive energy. -/
theorem eatStep_causes (env : SimEnv) :
    ∀ (pairs : List (AgentSt × ℕ)) (food : Finset (ℤ × ℤ)),
      List.Forall₂ (fun (p : AgentSt × ℕ) (b : AgentSt) =>
          p.1.death_reason = none → b.death_reason ≠ none → b.energy ≤ 0)
        pairs (eatStepPhase env pairs food).1
  | [], _ => List.Forall₂.nil
  | (a, n) :: rest, food => by
    by_cases hA : 0 < a.energy
    · simp only [eatStepPhase, if_pos hA]
      refine List.Forall₂.cons ?_ (eatStep_causes env rest (eat a food).2)
      intro hdr hnew
      exact step_new_cause_energy env n (eat a food).1
        ((eat_death_reason a food).trans hdr) hnew
    · simp only [eatStepPhase, if_neg hA]
      exact List.Forall₂.cons (fun hdr hnew => absurd hdr hnew)
        (eatStep_causes env rest food)

theorem cleanup_dead_partition (l : List AgentSt) :
    (cleanup l).length + (deadOf l).length = l.length := by
  induction l with
  | nil => rfl
  | cons a rest ih =>
    simp only [cleanup, deadOf, List.filter_cons, decide_eq_true_eq] at ih ⊢
    by_cases hA : 0 < a.energy
    · rw [if_pos hA, if_neg (not_le.mpr hA)]
      simp only [List.length_cons]
      omega
    · rw [if_neg hA, if_pos (not_lt.mp hA)]
      simp only [List.length_cons]
      omega

/-- C3 (amended).  After a tick's eat/age loop, cleanup removes exactly
the agents with energy ≤ 0: the live-set size drops by exactly their
number, and every agent whose death cause was assigned during the loop
is among the removed.  (A removed agent may carry no cause — movement
cost can drain it below zero before the aging step runs — or a cause
from a previous tick's hard cull, which runs after cleanup.) -/
theorem cleanup_accounting (env : SimEnv) (pairs : List (AgentSt × ℕ))
    (food : Finset (ℤ × ℤ)) :
    (cleanup (eatStepPhase env pairs food).1).length
        + (deadOf (eatStepPhase env pairs food).1).length
      = (eatStepPhase env pairs food).1.length ∧
    (eatStepPhase env pairs food).1.length = pairs.length ∧
    (∀ a, a ∈ deadOf (eatStepPhase env pairs food).1 ↔
        a ∈ (eatStepPhase env pairs food).1 ∧ a.energy ≤ 0) ∧
    (∀ a, a ∈ cleanup (eatStepPhase env pairs food).1 ↔
        a ∈ (eatStepPhase env pairs food).1 ∧ 0 < a.energy) ∧
    List.Forall₂ (fun (p : AgentSt × ℕ) (b : AgentSt) =>
        p.1.death_reason = none → b.death_reason ≠ none → b.energy ≤ 0)
      pairs (eatStepPhase env pairs food).1 := by
  refine ⟨cleanup_dead_partition _, ?_, ?_, ?_, eatStep_causes env pairs food⟩
  · exact ((eatStep_causes env pairs food).length_eq).symm
  · intro a
    simp [deadOf, List.mem_filter]
  · intro a
    simp [cleanup, List.mem_filter]

/-- C3 witness: a lone well-fed agent survives cleanup, sizes add up. -/
theorem cleanup_accounting_witness :
    (cleanup (eatStepPhase sim0 [(mkAgent 2 2 50, 0)] ∅).1).length
        + (deadOf (eatStepPhase sim0 [(mkAgent 2 2 50, 0)] ∅).1).length
      = (eatStepPhase sim0 [(mkAgent 2 2 50, 0)] ∅).1.length :=
  (cleanup_accounting sim0 [(mkAgent 2 2 50, 0)] ∅).1

-- Concrete tick fragment for the C3 counterexample: an agent with
-- energy 0.5 moves (cost 1.0), drops to -0.5, is skipped by the
-- eat/age loop (energy filter) and removed at cleanup with no cause.

def agC3 : AgentSt := mkAgent 2 1 (1/2)

def movedC3 : List AgentSt :=
  (moveStep sim0 0 [(agC3, (0 : Fin 4))] {(2, 1)} []).1

def outC3 : List AgentSt :=
  (eatStepPhase sim0 (movedC3.map (fun a => (a, 0))) ∅).1

/-- C3 counterexample: the agent that starves on movement cost is
removed at cleanup, yet no death cause was assigned this tick, so the
live-set size after cleanup (0) is not the size before (1) minus the
number of cause assignments (0). -/
theorem cleanup_missing_cause_ce :
    outC3.length = 1 ∧
    (cleanup outC3).length = 0 ∧
    (outC3.filter (fun a => a.death_reason ≠ none)).length = 0 ∧
    outC3.map AgentSt.death_reason = [none] ∧
    (cleanup outC3).length
      ≠ outC3.length - (outC3.filter (fun a => a.death_reason ≠ none)).length := by
  have h05 : (0 : ℚ) < agC3.energy := by norm_num [agC3, mkAgent]
  have hmv : movedC3 = [(apply_move sim0 agC3 0 {(2, 1)} [] 0).1] := by
    unfold movedC3
    simp only [moveStep, if_pos h05]
  have hen : (apply_move sim0 agC3 0 {(2, 1)} [] 0).1.energy = -(1/2) := by
    unfold apply_move
    dsimp only
    rw [if_neg (by decide)]
    show agC3.energy - sim0.MOVE_COST = -(1/2)
    norm_num [agC3, mkAgent, sim0]
  have hdr : (apply_move sim0 agC3 0 {(2, 1)} [] 0).1.death_reason = none := by
    unfold apply_move
    dsimp only
    rw [if_neg (by decide)]
    rfl
  have hneg : ¬ (0 : ℚ) < (apply_move sim0 agC3 0 {(2, 1)} [] 0).1.energy := by
    rw [hen]; norm_num
  have hout : outC3 = [(apply_move sim0 agC3 0 {(2, 1)} [] 0).1] := by
    unfold outC3
    rw [hmv]
    simp only [List.map_cons, List.map_nil, eatStepPhase, if_neg hneg]
  refine ⟨by rw [hout]; rfl, ?_, ?_, ?_, ?_⟩
  · rw [hout]
    simp only [cleanup, List.filter_cons, decide_eq_true_eq, if_neg hneg]
    rfl
  · rw [hout]
    simp [hdr]
  · rw [hout, List.map_cons, hdr, List.map_nil]
  · rw [hout]
    simp only [cleanup, List.filter_cons, decide_eq_true_eq, if_neg hneg]
    simp [hdr]

-- ======================================================================
-- population_balancer.py : PopulationBalancer.balance
-- ======================================================================

/-- Python values appearing in the death-cause bookkeeping: the records
of `recent_deaths` (cause strings, or `None` for an agent removed with
no cause) and the tuple literal `("crowd", "cull")` that `balance`
compares each record against. -/
inductive PyVal
  | str (s : String)
  | pynone
  | pair (a b : String)
  deriving DecidableEq, Repr

/-- Python `==` on these values: structural, and never identifies values
of different shapes (a string never equals a tuple). -/
def pyEq : PyVal → PyVal → Bool
  | PyVal.str a, PyVal.str b => a == b
  | PyVal.pynone, PyVal.pynone => true
  | PyVal.pair a b, PyVal.pair c d => a == c && b == d
  | _, _ => false

/-- `True` for the values the simulation actually appends to
`recent_deaths` (strings or `None`, never a tuple). -/
def isRecordVal : PyVal → Bool
  | PyVal.pair _ _ => false
  | _ => true

/-- `crowd = sum(1 for d in recent_deaths if d == ("crowd", "cull"))` —
note the source compares each record to a tuple. -/
def crowdCount (ds : List PyVal) : ℕ :=
  (ds.filter (fun d => pyEq d (PyVal.pair "crowd" "cull"))).length

/-- `energy = sum(1 for d in recent_deaths if d == "energy")`. -/
def energyCount (ds : List PyVal) : ℕ :=
  (ds.filter (fun d => pyEq d (PyVal.str "energy"))).length

/-- `old_age = sum(1 for d in recent_deaths if d == "old_age")`. -/
def oldAgeCount (ds : List PyVal) : ℕ :=
  (ds.filter (fun d => pyEq d (PyVal.str "old_age"))).length

-- Class constants of PopulationBalancer.
def MAXN_MIN : ℤ := 8
def MAXN_MAX : ℤ := 30
def FOOD_MIN : ℤ := 300
def FOOD_MAX : ℤ := 1200
def MOVE_MIN : ℚ := 8/10
def MOVE_MAX : ℚ := 5/2
def POP_MIN : ℤ := 200
def POP_MAX : ℤ := 2000
def DEADLOCK_LIMIT : ℕ := 80

/-- Python `int()` on a non-negative-or-negative rational: truncation
toward zero. -/
def pyInt (q : ℚ) : ℤ :=
  if 0 ≤ q then ⌊q⌋ else -(⌊-q⌋)

/-- The balancer-owned simulation state: the five resource knobs, the
three death-ratio EMAs and the balancer's deadlock counter. -/
structure BState where
  MAX_NEIGHBORS : ℤ
  FOOD_COUNT : ℤ
  MOVE_COST : ℚ
  IDLE_COST : ℚ
  MAX_POP : ℤ
  ema_crowd : ℚ
  ema_energy : ℚ
  ema_old_age : ℚ
  deadlock_ticks : ℕ
  deriving Repr

/-- Oracle values for the two `random.randint` draws of the deadlock
breaker. -/
structure BalanceRand where
  maxn_draw : ℤ
  food_draw : ℤ
  deriving Repr

/-- The EMA-update section of `balance` (`dynamic_alpha = 0.03`,
denominator `crowd + energy + old_age + 1`). -/
def balanceEmas (ds : List PyVal) (s : BState) : BState :=
  { s with
    ema_crowd := s.ema_crowd + 3/100 *
      ((crowdCount ds : ℚ) /
        ((crowdCount ds : ℚ) + (energyCount ds : ℚ) + (oldAgeCount ds : ℚ) + 1)
       - s.ema_crowd),
    ema_energy := s.ema_energy + 3/100 *
      ((energyCount ds : ℚ) /
        ((crowdCount ds : ℚ) + (energyCount ds : ℚ) + (oldAgeCount ds : ℚ) + 1)
       - s.ema_energy),
    ema_old_age := s.ema_old_age + 3/100 *
      ((oldAgeCount ds : ℚ) /
        ((crowdCount ds : ℚ) + (energyCount ds : ℚ) + (oldAgeCount ds : ℚ) + 1)
       - s.ema_old_age) }

/-- The four candidate knob values (proportional feedback, each change
factor clamped to its band, each knob clamped to its legal range, the
integer knobs truncated by `int()`). -/
def balanceKnobs (s : BState) : ℤ × ℤ × ℚ × ℤ :=
  let neighbor_change :=
    clamp (1 + (s.ema_crowd - targetCrowdRatio) * (1/10)) (98/100) (102/100)
  let food_change :=
    clamp (1 + (s.ema_energy - targetEnergyRatio) * (1/10)) (98/100) (102/100)
  let move_cost_change :=
    clamp (1 + (s.ema_crowd - targetCrowdRatio) * (5/100)) (98/100) (102/100)
  let pop_limit_change :=
    clamp (1 - (s.ema_crowd - targetCrowdRatio) * (5/100)) (95/100) (105/100)
  (pyInt (clamp ((s.MAX_NEIGHBORS : ℚ) * neighbor_change)
      ((MAXN_MIN : ℤ) : ℚ) ((MAXN_MAX : ℤ) : ℚ)),
   pyInt (clamp ((s.FOOD_COUNT : ℚ) * food_change)
      ((FOOD_MIN : ℤ) : ℚ) ((FOOD_MAX : ℤ) : ℚ)),
   clamp (s.MOVE_COST * move_cost_change) MOVE_MIN MOVE_MAX,
   pyInt (clamp ((s.MAX_POP : ℚ) * pop_limit_change)
      ((POP_MIN : ℤ) : ℚ) ((POP_MAX : ℤ) : ℚ)))

/-- The deadlock condition of `balance`, on the candidate knob values
and the updated crowd EMA. -/
def is_deadlocked (s : BState) (maxn food : ℤ) (move : ℚ) (maxpop : ℤ) : Prop :=
  |(maxn : ℚ) - ((MAXN_MIN : ℤ) : ℚ)| < 11/10 ∧
  |(food : ℚ) - ((FOOD_MIN : ℤ) : ℚ)| < 51/10 ∧
  |move - MOVE_MAX| < 9/100 ∧
  |(maxpop : ℚ) - ((POP_MIN : ℤ) : ℚ)| < 15 ∧
  s.ema_crowd > 96/100

instance (s : BState) (maxn food : ℤ) (move : ℚ) (maxpop : ℤ) :
    Decidable (is_deadlocked s maxn food move maxpop) := by
  unfold is_deadlocked
  infer_instance

/-- `if len(sim.agents) > sim.MAX_POP:` — the moderate resource
reduction (reads the freshly applied knobs). -/
def softHigh (pop : ℕ) (t : BState) : BState :=
  if t.MAX_POP < (pop : ℤ) then
    { t with
      FOOD_COUNT := max (t.FOOD_COUNT - 50) FOOD_MIN,
      MOVE_COST := min (t.MOVE_COST + 5/100) MOVE_MAX,
      IDLE_COST := (min (t.MOVE_COST + 5/100) MOVE_MAX) * (6/10) }
  else t

/-- `if len(sim.agents) < MIN_POP:` — the gentle resource support. -/
def softLow (pop : ℕ) (t : BState) : BState :=
  if pop < MIN_POP then
    { t with
      FOOD_COUNT := min (t.FOOD_COUNT + 50) FOOD_MAX,
      MOVE_COST := max (t.MOVE_COST - 5/100) MOVE_MIN,
      IDLE_COST := (max (t.MOVE_COST - 5/100) MOVE_MIN) * (6/10) }
  else t

/-- `PopulationBalancer.balance`, one call.  `pop` is the live-agent
count; the hard cull only rewrites agents' energies, so the balancer
state below is unchanged by it.  The two `randint` draws of the
deadlock breaker are passed as oracles. -/
def balance (pop : ℕ) (ds : List PyVal) (rnd : BalanceRand) (s : BState) :
    BState :=
  if pop = 0 ∨ ds.length < 50 then s
  else
    let s1 := balanceEmas ds s
    let k := balanceKnobs s1
    let dl := if is_deadlocked s1 k.1 k.2.1 k.2.2.1 k.2.2.2 then
        s1.deadlock_ticks + 1
      else 0
    let s2 :=
      if DEADLOCK_LIMIT ≤ dl then
        { s1 with
          MAX_NEIGHBORS := rnd.maxn_draw,
          FOOD_COUNT := rnd.food_draw,
          MOVE_COST := MOVE_MIN,
          IDLE_COST := MOVE_MIN * (6/10),
          MAX_POP := POP_MAX,
          ema_crowd := 3/10,
          deadlock_ticks := 0 }
      else
        { s1 with
          MAX_NEIGHBORS := k.1,
          FOOD_COUNT := k.2.1,
          MOVE_COST := k.2.2.1,
          IDLE_COST := k.2.2.1 * (6/10),
          MAX_POP := k.2.2.2,
          deadlock_ticks := dl }
    softLow pop (softHigh pop s2)

-- Bounds plumbing for the balancer.

theorem clamp_bounds {α : Type} [LinearOrder α] (v lo hi : α) (h : lo ≤ hi) :
    lo ≤ clamp v lo hi ∧ clamp v lo hi ≤ hi :=
  ⟨le_max_left _ _, max_le h (min_le_left _ _)⟩

theorem pyInt_bounds (q : ℚ) (lo hi : ℤ) (h0 : 0 ≤ lo)
    (hlo : (lo : ℚ) ≤ q) (hhi : q ≤ (hi : ℚ)) :
    lo ≤ pyInt q ∧ pyInt q ≤ hi := by
  have h0q : (0 : ℚ) ≤ q := le_trans (by exact_mod_cast h0) hlo
  unfold pyInt
  rw [if_pos h0q]
  refine ⟨Int.le_floor.mpr hlo, ?_⟩
  calc ⌊q⌋ ≤ ⌊(hi : ℚ)⌋ := Int.floor_le_floor hhi
    _ = hi := Int.floor_intCast hi

theorem pyInt_clamp_bounds (v : ℚ) (lo hi : ℤ) (h0 : 0 ≤ lo)
    (h : ((lo : ℤ) : ℚ) ≤ ((hi : ℤ) : ℚ)) :
    lo ≤ pyInt (clamp v ((lo : ℤ) : ℚ) ((hi : ℤ) : ℚ)) ∧
    pyInt (clamp v ((lo : ℤ) : ℚ) ((hi : ℤ) : ℚ)) ≤ hi := by
  have hc := clamp_bounds v ((lo : ℤ) : ℚ) ((hi : ℤ) : ℚ) h
  exact pyInt_bounds _ lo hi h0 hc.1 hc.2

/-- The hard legal ranges of the four knobs, plus the fixed idle/move
coupling. -/
def knobsOK (t : BState) : Prop :=
  MAXN_MIN ≤ t.MAX_NEIGHBORS ∧ t.MAX_NEIGHBORS ≤ MAXN_MAX ∧
  FOOD_MIN ≤ t.FOOD_COUNT ∧ t.FOOD_COUNT ≤ FOOD_MAX ∧
  MOVE_MIN ≤ t.MOVE_COST ∧ t.MOVE_COST ≤ MOVE_MAX ∧
  POP_MIN ≤ t.MAX_POP ∧ t.MAX_POP ≤ POP_MAX ∧
  t.IDLE_COST = t.MOVE_COST * (6/10)

theorem balanceKnobs_bounds (s : BState) :
    MAXN_MIN ≤ (balanceKnobs s).1 ∧ (balanceKnobs s).1 ≤ MAXN_MAX ∧
    FOOD_MIN ≤ (balanceKnobs s).2.1 ∧ (balanceKnobs s).2.1 ≤ FOOD_MAX ∧
    MOVE_MIN ≤ (balanceKnobs s).2.2.1 ∧ (balanceKnobs s).2.2.1 ≤ MOVE_MAX ∧
    POP_MIN ≤ (balanceKnobs s).2.2.2 ∧ (balanceKnobs s).2.2.2 ≤ POP_MAX := by
  unfold balanceKnobs
  dsimp only
  have hm := pyInt_clamp_bounds ((s.MAX_NEIGHBORS : ℚ) *
      clamp (1 + (s.ema_crowd - targetCrowdRatio) * (1/10)) (98/100) (102/100))
      MAXN_MIN MAXN_MAX (by norm_num [MAXN_MIN]) (by norm_num [MAXN_MIN, MAXN_MAX])
  have hf := pyInt_clamp_bounds ((s.FOOD_COUNT : ℚ) *
      clamp (1 + (s.ema_energy - targetEnergyRatio) * (1/10)) (98/100) (102/100))
      FOOD_MIN FOOD_MAX (by norm_num [FOOD_MIN]) (by norm_num [FOOD_MIN, FOOD_MAX])
  have hv := clamp_bounds ((s.MOVE_COST) *
      clamp (1 + (s.ema_crowd - targetCrowdRatio) * (5/100)) (98/100) (102/100))
      MOVE_MIN MOVE_MAX (by norm_num [MOVE_MIN, MOVE_MAX])
  have hp := pyInt_clamp_bounds ((s.MAX_POP : ℚ) *
      clamp (1 - (s.ema_crowd - targetCrowdRatio) * (5/100)) (95/100) (105/100))
      POP_MIN POP_MAX (by norm_num [POP_MIN]) (by norm_num [POP_MIN, POP_MAX])
  exact ⟨hm.1, hm.2, hf.1, hf.2, hv.1, hv.2, hp.1, hp.2⟩

theorem softHigh_knobsOK (pop : ℕ) (t : BState) (h : knobsOK t) :
    knobsOK (softHigh pop t) := by
  unfold softHigh
  split_ifs with hc
  · obtain ⟨a1, a2, f1, f2, m1, m2, p1, p2, _⟩ := h
    exact ⟨a1, a2, le_max_right _ _,
      max_le (by omega) (by norm_num [FOOD_MIN, FOOD_MAX]),
      le_min (by linarith) (by norm_num [MOVE_MIN, MOVE_MAX]),
      min_le_right _ _, p1, p2, rfl⟩
  · exact h

theorem softLow_knobsOK (pop : ℕ) (t : BState) (h : knobsOK t) :
    knobsOK (softLow pop t) := by
  unfold softLow
  split_ifs with hc
  · obtain ⟨a1, a2, f1, f2, m1, m2, p1, p2, _⟩ := h
    exact ⟨a1, a2,
      le_min (by omega) (by norm_num [FOOD_MIN, FOOD_MAX]),
      min_le_right _ _,
      le_max_right _ _,
      max_le (by linarith) (by norm_num [MOVE_MIN, MOVE_MAX]),
      p1, p2, rfl⟩
  · exact h

/-- C4.  Every `balance()` call that passes the data guard leaves all
four resource knobs inside their hard legal ranges — max-neighbor
threshold in [8, 30], food target in [300, 1200], move cost in
[0.8, 2.5], population cap in [200, 2000] — for any input EMA values,
and the idle cost equals 0.6 times the move cost. -/
theorem balance_clamps (pop : ℕ) (ds : List PyVal) (rnd : BalanceRand)
    (s : BState) (hpop : pop ≠ 0) (hlen : 50 ≤ ds.length)
    (hr1 : 20 ≤ rnd.maxn_draw) (hr2 : rnd.maxn_draw ≤ MAXN_MAX)
    (hr3 : FOOD_MAX / 2 ≤ rnd.food_draw) (hr4 : rnd.food_draw ≤ FOOD_MAX) :
    MAXN_MIN ≤ (balance pop ds rnd s).MAX_NEIGHBORS ∧
    (balance pop ds rnd s).MAX_NEIGHBORS ≤ MAXN_MAX ∧
    FOOD_MIN ≤ (balance pop ds rnd s).FOOD_COUNT ∧
    (balance pop ds rnd s).FOOD_COUNT ≤ FOOD_MAX ∧
    MOVE_MIN ≤ (balance pop ds rnd s).MOVE_COST ∧
    (balance pop ds rnd s).MOVE_COST ≤ MOVE_MAX ∧
    POP_MIN ≤ (balance pop ds rnd s).MAX_POP ∧
    (balance pop ds rnd s).MAX_POP ≤ POP_MAX ∧
    (balance pop ds rnd s).IDLE_COST = (balance pop ds rnd s).MOVE_COST * (6/10) := by
  have hg : ¬(pop = 0 ∨ ds.length < 50) := by
    rintro (h | h)
    · exact hpop h
    · omega
  show knobsOK (balance pop ds rnd s)
  unfold balance
  rw [if_neg hg]
  dsimp only
  apply softLow_knobsOK
  apply softHigh_knobsOK
  have hk := balanceKnobs_bounds (balanceEmas ds s)
  split_ifs <;>
    first
      | exact ⟨le_trans (by norm_num [MAXN_MIN]) hr1, hr2,
          le_trans (by norm_num [FOOD_MIN, FOOD_MAX]) hr3, hr4,
          le_refl _, by norm_num [MOVE_MIN, MOVE_MAX],
          by norm_num [POP_MIN, POP_MAX], le_refl _, rfl⟩
      | exact ⟨hk.1, hk.2.1, hk.2.2.1, hk.2.2.2.1, hk.2.2.2.2.1,
          hk.2.2.2.2.2.1, hk.2.2.2.2.2.2.1, hk.2.2.2.2.2.2.2, rfl⟩

-- Concrete balancer inputs for witnesses and the C5 counterexample:
-- 25 crowd-cause and 25 energy-cause records, the initial resource
-- state of `Simulation.__init__`, population 100.

def ds50 : List PyVal :=
  List.replicate 25 (PyVal.str "crowd") ++ List.replicate 25 (PyVal.str "energy")

def rnd0 : BalanceRand := { maxn_draw := 20, food_draw := 600 }

def sInit : BState :=
  { MAX_NEIGHBORS := 15, FOOD_COUNT := 600, MOVE_COST := 1,
    IDLE_COST := 6/10, MAX_POP := 800,
    ema_crowd := 0, ema_energy := 0, ema_old_age := 0, deadlock_ticks := 0 }

/-- C4 witness: the ranges hold after a concrete guarded call. -/
theorem balance_clamps_witness :
    MAXN_MIN ≤ (balance 100 ds50 rnd0 sInit).MAX_NEIGHBORS ∧
    (balance 100 ds50 rnd0 sInit).MAX_NEIGHBORS ≤ MAXN_MAX ∧
    FOOD_MIN ≤ (balance 100 ds50 rnd0 sInit).FOOD_COUNT ∧
    (balance 100 ds50 rnd0 sInit).FOOD_COUNT ≤ FOOD_MAX ∧
    MOVE_MIN ≤ (balance 100 ds50 rnd0 sInit).MOVE_COST ∧
    (balance 100 ds50 rnd0 sInit).MOVE_COST ≤ MOVE_MAX ∧
    POP_MIN ≤ (balance 100 ds50 rnd0 sInit).MAX_POP ∧
    (balance 100 ds50 rnd0 sInit).MAX_POP ≤ POP_MAX ∧
    (balance 100 ds50 rnd0 sInit).IDLE_COST
      = (balance 100 ds50 rnd0 sInit).MOVE_COST * (6/10) :=
  balance_clamps 100 ds50 rnd0 sInit (by decide) (by decide)
    (by decide) (by decide) (by decide) (by decide)

-- EMA bookkeeping facts.

theorem balance_emas_proj (pop : ℕ) (ds : List PyVal) (rnd : BalanceRand)
    (s : BState) (hg : ¬(pop = 0 ∨ ds.length < 50)) :
    (balance pop ds rnd s).ema_energy = (balanceEmas ds s).ema_energy ∧
    (balance pop ds rnd s).ema_old_age = (balanceEmas ds s).ema_old_age ∧
    (s.deadlock_ticks + 1 < DEADLOCK_LIMIT →
      (balance pop ds rnd s).ema_crowd = (balanceEmas ds s).ema_crowd) := by
  have hbe : (balanceEmas ds s).deadlock_ticks = s.deadlock_ticks := rfl
  unfold balance
  rw [if_neg hg]
  dsimp only
  unfold softLow softHigh
  refine ⟨?_, ?_, ?_⟩
  · split_ifs <;> rfl
  · split_ifs <;> rfl
  · intro hlt
    split_ifs <;>
      first
        | rfl
        | (exfalso; simp only [DEADLOCK_LIMIT] at *; omega)

theorem crowdCount_eq_zero (ds : List PyVal)
    (hrec : ∀ d ∈ ds, isRecordVal d = true) : crowdCount ds = 0 := by
  unfold crowdCount
  rw [List.length_eq_zero, List.filter_eq_nil_iff]
  intro d hd
  have hr := hrec d hd
  cases d <;> simp_all [pyEq, isRecordVal]

/-- C5 counterexample: with 25 `crowd` and 25 `energy` records and zero
EMAs, the claim predicts both the crowd and the energy EMA to move to
`0.03 * (25/50)`; the code's crowd count is 0 (the record is compared
against the tuple `("crowd", "cull")`) and its denominator is
`crowd + energy + old_age + 1 = 26`, so the crowd EMA stays 0 and the
energy EMA becomes `0.03 * 25/26 = 3/104`. -/
theorem balance_ratio_ce :
    crowdCount ds50 = 0 ∧
    energyCount ds50 = 25 ∧
    oldAgeCount ds50 = 0 ∧
    (balance 100 ds50 rnd0 sInit).ema_crowd = 0 ∧
    (balance 100 ds50 rnd0 sInit).ema_energy = 3/104 ∧
    (balance 100 ds50 rnd0 sInit).ema_crowd ≠ 0 + 3/100 * ((25 : ℚ)/50 - 0) ∧
    (balance 100 ds50 rnd0 sInit).ema_energy ≠ 0 + 3/100 * ((25 : ℚ)/50 - 0) := by
  have hg : ¬((100 : ℕ) = 0 ∨ ds50.length < 50) := by decide
  have hcc : crowdCount ds50 = 0 := by decide
  have hec : energyCount ds50 = 25 := by decide
  have hoc : oldAgeCount ds50 = 0 := by decide
  have hproj := balance_emas_proj 100 ds50 rnd0 sInit hg
  have hticks : sInit.deadlock_ticks + 1 < DEADLOCK_LIMIT := by
    norm_num [sInit, DEADLOCK_LIMIT]
  have hcrowd : (balanceEmas ds50 sInit).ema_crowd = 0 := by
    unfold balanceEmas
    dsimp only
    rw [hcc, hec, hoc]
    norm_num [sInit]
  have henergy : (balanceEmas ds50 sInit).ema_energy = 3/104 := by
    unfold balanceEmas
    dsimp only
    rw [hcc, hec, hoc]
    norm_num [sInit]
  have hc := (hproj.2.2 hticks).trans hcrowd
  have he := hproj.1.trans henergy
  refine ⟨hcc, hec, hoc, hc, he, ?_, ?_⟩
  · rw [hc]; norm_num
  · rw [he]; norm_num

/-- C5 (amended).  When `balance` runs past its data guard on records
that are strings or `None` (as the simulation produces), the crowd
count is 0 — the source compares each record with the tuple
`("crowd", "cull")`, which never equals a string — and each EMA moves
toward its instantaneous ratio with factor 0.03, the ratios being the
counts divided by `crowd + energy + old_age + 1` (not by the bare sum
of the three counts); the crowd-EMA equation holds on calls that do not
fire the deadlock recovery. -/
theorem balance_ema_update (pop : ℕ) (ds : List PyVal) (rnd : BalanceRand)
    (s : BState) (hpop : pop ≠ 0) (hlen : 50 ≤ ds.length)
    (hrec : ∀ d ∈ ds, isRecordVal d = true) :
    crowdCount ds = 0 ∧
    (balance pop ds rnd s).ema_energy
      = s.ema_energy + 3/100 *
          ((energyCount ds : ℚ) /
            ((crowdCount ds : ℚ) + (energyCount ds : ℚ) + (oldAgeCount ds : ℚ) + 1)
           - s.ema_energy) ∧
    (balance pop ds rnd s).ema_old_age
      = s.ema_old_age + 3/100 *
          ((oldAgeCount ds : ℚ) /
            ((crowdCount ds : ℚ) + (energyCount ds : ℚ) + (oldAgeCount ds : ℚ) + 1)
           - s.ema_old_age) ∧
    (s.deadlock_ticks + 1 < DEADLOCK_LIMIT →
      (balance pop ds rnd s).ema_crowd
        = s.ema_crowd + 3/100 *
            ((crowdCount ds : ℚ) /
              ((crowdCount ds : ℚ) + (energyCount ds : ℚ) + (oldAgeCount ds : ℚ) + 1)
             - s.ema_crowd)) := by
  have hg : ¬(pop = 0 ∨ ds.length < 50) := by
    rintro (h | h)
    · exact hpop h
    · omega
  have hproj := balance_emas_proj pop ds rnd s hg
  exact ⟨crowdCount_eq_zero ds hrec, hproj.1, hproj.2.1,
    fun hlt => hproj.2.2 hlt⟩

/-- C5 witness: the amended EMA equations at the concrete input. -/
theorem balance_ema_update_witness :
    crowdCount ds50 = 0 ∧
    (balance 100 ds50 rnd0 sInit).ema_energy
      = sInit.ema_energy + 3/100 *
          ((energyCount ds50 : ℚ) /
            ((crowdCount ds50 : ℚ) + (energyCount ds50 : ℚ) + (oldAgeCount ds50 : ℚ) + 1)
           - sInit.ema_energy) :=
  ⟨(balance_ema_update 100 ds50 rnd0 sInit (by decide) (by decide) (by decide)).1,
   (balance_ema_update 100 ds50 rnd0 sInit (by decide) (by decide) (by decide)).2.1⟩

-- Soft-path no-ops under population bounds.

theorem softHigh_of_le (pop : ℕ) (t : BState) (h : (pop : ℤ) ≤ t.MAX_POP) :
    softHigh pop t = t := by
  unfold softHigh
  rw [if_neg (not_lt.mpr h)]

theorem softLow_of_ge (pop : ℕ) (t : BState) (h : MIN_POP ≤ pop) :
    softLow pop t = t := by
  unfold softLow
  rw [if_neg (not_lt.mpr h)]

/-- C6.  On every guarded `balance` call, the deadlock counter
increments exactly when the deadlock condition holds on the freshly
computed candidate knobs and resets to zero otherwise; when the
incremented counter reaches the limit (80), that call performs the
one-shot recovery — max neighbors and food count take the generous
random draws, move cost drops to its legal minimum (idle following),
the population cap jumps to its legal maximum, the crowd EMA is forced
to 0.3, and the counter resets to zero (the knob values stated for a
population inside [MIN_POP, POP_MAX], where the safety valves stay
quiet). -/
theorem balance_deadlock_behavior (pop : ℕ) (ds : List PyVal)
    (rnd : BalanceRand) (s : BState)
    (hpop : pop ≠ 0) (hlen : 50 ≤ ds.length) :
    (¬ is_deadlocked (balanceEmas ds s)
        (balanceKnobs (balanceEmas ds s)).1
        (balanceKnobs (balanceEmas ds s)).2.1
        (balanceKnobs (balanceEmas ds s)).2.2.1
        (balanceKnobs (balanceEmas ds s)).2.2.2 →
      (balance pop ds rnd s).deadlock_ticks = 0) ∧
    (is_deadlocked (balanceEmas ds s)
        (balanceKnobs (balanceEmas ds s)).1
        (balanceKnobs (balanceEmas ds s)).2.1
        (balanceKnobs (balanceEmas ds s)).2.2.1
        (balanceKnobs (balanceEmas ds s)).2.2.2 →
      s.deadlock_ticks + 1 < DEADLOCK_LIMIT →
      (balance pop ds rnd s).deadlock_ticks = s.deadlock_ticks + 1) ∧
    (is_deadlocked (balanceEmas ds s)
        (balanceKnobs (balanceEmas ds s)).1
        (balanceKnobs (balanceEmas ds s)).2.1
        (balanceKnobs (balanceEmas ds s)).2.2.1
        (balanceKnobs (balanceEmas ds s)).2.2.2 →
      DEADLOCK_LIMIT ≤ s.deadlock_ticks + 1 →
      MIN_POP ≤ pop → (pop : ℤ) ≤ POP_MAX →
      (balance pop ds rnd s).deadlock_ticks = 0 ∧
      (balance pop ds rnd s).MAX_NEIGHBORS = rnd.maxn_draw ∧
      (balance pop ds rnd s).FOOD_COUNT = rnd.food_draw ∧
      (balance pop ds rnd s).MOVE_COST = MOVE_MIN ∧
      (balance pop ds rnd s).IDLE_COST = MOVE_MIN * (6/10) ∧
      (balance pop ds rnd s).MAX_POP = POP_MAX ∧
      (balance pop ds rnd s).ema_crowd = 3/10) := by
  have hg : ¬(pop = 0 ∨ ds.length < 50) := by
    rintro (h | h)
    · exact hpop h
    · omega
  have hbe : (balanceEmas ds s).deadlock_ticks = s.deadlock_ticks := rfl
  refine ⟨?_, ?_, ?_⟩
  · intro hnd
    unfold balance
    rw [if_neg hg]
    dsimp only
    rw [if_neg hnd, if_neg (by norm_num [DEADLOCK_LIMIT])]
    unfold softLow softHigh
    split_ifs <;> rfl
  · intro hd hlt
    unfold balance
    rw [if_neg hg]
    dsimp only
    rw [if_pos hd, if_neg (by simp only [DEADLOCK_LIMIT] at hlt ⊢; omega)]
    unfold softLow softHigh
    split_ifs <;> rfl
  · intro hd hge hmin hmax
    unfold balance
    rw [if_neg hg]
    dsimp only
    rw [if_pos hd, if_pos (by simp only [DEADLOCK_LIMIT] at hge ⊢; omega)]
    rw [softHigh_of_le pop _ hmax, softLow_of_ge pop _ hmin]
    exact ⟨rfl, rfl, rfl, rfl, rfl, rfl, rfl⟩

/-- C6 witness: at the concrete input the crowd EMA is 0, so the
deadlock condition fails and the counter resets to zero. -/
theorem balance_deadlock_behavior_witness :
    (balance 100 ds50 rnd0 sInit).deadlock_ticks = 0 := by
  have hcrowd : (balanceEmas ds50 sInit).ema_crowd = 0 := by
    unfold balanceEmas
    dsimp only
    rw [show crowdCount ds50 = 0 from by decide,
      show energyCount ds50 = 25 from by decide,
      show oldAgeCount ds50 = 0 from by decide]
    norm_num [sInit]
  refine (balance_deadlock_behavior 100 ds50 rnd0 sInit (by decide) (by decide)).1
    (fun h => absurd h.2.2.2.2 ?_)
  rw [hcrowd]
  norm_num
